import Mathlib

/-!
Shallow embedding of the palm-payment core of `src/plam.py` (class `PalmUPIPayment`)
and theorems checking the specification claims against it.

External collaborators are modelled as explicit inputs or, where only their documented
contract matters, as flagged model definitions:
* the computer-vision feature extractor (`cv2` in `_extract_palm_features`) produces a
  list of integer keypoints; the services here take that list as their input;
* `hashlib.sha256` and the Fernet cipher live in libraries outside this repository,
  so they are modelled from the spec (see `sha256hex`, `fernetEncrypt`, `fernetDecrypt`);
* randomness (the vault key) and clocks (timestamps, `time.time()`) are parameters.

Numeric embedding: match scores are quotients of small integer counts and the
threshold is the literal `0.8`, so scores are embedded as rationals with the threshold
`4 / 5`.  The comparison `np.sqrt d2 < 10` on an integer squared distance `d2` is
embedded as `d2 < 100`, which is exact: square roots are monotone and correctly
rounded, and both `100` and `10` are exactly representable, so
`sqrt d2 < 10 ↔ d2 < 100` also holds for the floating-point computation.
-/

/-- A palm keypoint `(cx, cy)` as produced by `_extract_palm_features`: the integer
centroid coordinates of one contour. -/
structure Point where
  x : Int
  y : Int
deriving DecidableEq

/-- A feature vector: the list of keypoints extracted from one palm image. -/
abbrev Features := List Point

/-- Squared Euclidean distance between two keypoints: the exact integer value under
the square root in `(p1[0] - p2[0])**2 + (p1[1] - p2[1])**2`. -/
def sq_dist (p q : Point) : Int :=
  (p.x - q.x) * (p.x - q.x) + (p.y - q.y) * (p.y - q.y)

/-- Inner loop of `_match_palm_features`: the presented point `p` counts as matched as
soon as some enrolled point lies at distance below the pixel threshold `10` (the
source breaks out of the loop at the first hit, so `p` is counted at most once).
`np.sqrt d2 < 10` is embedded as `d2 < 100`. -/
def point_matched (p : Point) (features2 : Features) : Bool :=
  features2.any fun q => sq_dist p q < 100

/-- Embedding of `PalmUPIPayment._match_palm_features`: `0` when either feature list
is empty (the Python truthiness guard `if not features1 or not features2`), otherwise
the number of presented points with an enrolled neighbour at distance `< 10` divided
by the presented count.  The trailing `if len(features1) > 0 else 0` guard of the
source is kept although it is redundant after the emptiness guard. -/
def match_palm_features (features1 features2 : Features) : ℚ :=
  if features1 = [] ∨ features2 = [] then 0
  else if 0 < features1.length then
    ((features1.filter fun p => point_matched p features2).length : ℚ) /
      (features1.length : ℚ)
  else 0

/-- The matcher score exactly as claim C1 words it: a presented point is matched when
some enrolled point lies within Euclidean distance 10 units, read inclusively
(`d ≤ 10`, that is squared distance `≤ 100`); the score is the matched count over the
presented count and `0` for an empty presented set. -/
def claimed_score_within_ten (presented enrolled : Features) : ℚ :=
  if presented = [] then 0
  else ((presented.filter fun p => enrolled.any fun q => sq_dist p q ≤ 100).length : ℚ) /
    (presented.length : ℚ)

/-- Claim C1 amended to the strict comparison the source actually uses: a presented
point is matched when some enrolled point lies at Euclidean distance strictly less
than 10 units. -/
def amended_score_strictly_within_ten (presented enrolled : Features) : ℚ :=
  if presented = [] then 0
  else ((presented.filter fun p => point_matched p enrolled).length : ℚ) /
    (presented.length : ℚ)

/-- Modelled from the spec: a ciphertext of the Fernet cipher (the `cryptography`
library, outside this repository) is modelled as the encrypting key paired with the
plaintext, capturing the documented contract of authenticated symmetric encryption —
decryption under the generating key restores the plaintext and decryption under any
other key fails. -/
structure Cipher where
  key : Nat
  plaintext : String
deriving DecidableEq

/-- Modelled from the spec: `Fernet(key).encrypt(plaintext)`. -/
def fernetEncrypt (key : Nat) (plaintext : String) : Cipher :=
  ⟨key, plaintext⟩

/-- Modelled from the spec: `Fernet(key).decrypt(c)`; `none` models the
`InvalidToken` exception raised on a ciphertext not produced under `key`. -/
def fernetDecrypt (key : Nat) (c : Cipher) : Option String :=
  if c.key = key then some c.plaintext else none

/-- Python `str` of one keypoint tuple as it appears inside `str(palm_features)`,
for example `(12, 34)`. -/
def py_str_point (p : Point) : String :=
  "(" ++ toString p.x ++ ", " ++ toString p.y ++ ")"

/-- Python `str` of the keypoint list, for example `[(12, 34), (5, 6)]`, and `[]`
for the empty list. -/
def py_str_features (features : Features) : String :=
  "[" ++ String.intercalate ", " (features.map py_str_point) ++ "]"

/-- Hexadecimal rendering of a natural number, zero-padded to 64 digits. -/
def hex64 (n : Nat) : String :=
  let ds := Nat.toDigits 16 n
  String.mk (List.replicate (64 - ds.length) '0' ++ ds)

/-- Modelled from the spec: `hashlib.sha256(text.encode()).hexdigest()` — SHA-256
comes from the Python standard library, outside this repository.  The claims depend
only on the digest being a deterministic pure function of the input text yielding a
nonempty hex string, so the compression itself is modelled by a simple deterministic
256-bit fold over the characters. -/
def sha256hex (text : String) : String :=
  hex64 (text.data.foldl (fun a c => (a * 1099511628211 + c.toNat + 1) % 2 ^ 256)
    14695981039346656037)

/-- One enrollment record as stored in `st.session_state.palm_db`. -/
structure Record where
  user_id : String
  encrypted_upi_id : Cipher
  registration_date : String
  palm_features : Features
deriving DecidableEq

/-- The palm database `st.session_state.palm_db`: a Python dict embedded as an
insertion-ordered association list with unique keys. -/
abbrev Store := List (String × Record)

/-- Python dict assignment `db[k] = r`: replace the binding in place when the key is
present, append a new binding otherwise. -/
def dbInsert : Store → String → Record → Store
  | [], k, r => [(k, r)]
  | kv :: rest, k, r => if kv.1 = k then (k, r) :: rest else kv :: dbInsert rest k r

/-- Python dict lookup, `none` when the key is absent (`palm_id not in palm_db`). -/
def dbGet : Store → String → Option Record
  | [], _ => none
  | kv :: rest, k => if kv.1 = k then some kv.2 else dbGet rest k

/-- The `user_id` dict handed to `register_new_palm` by the registration form. -/
structure UserData where
  user_id : String
  user_name : String
  upi_id : String
deriving DecidableEq

/-- The dict returned by `register_new_palm`. -/
structure RegisterResult where
  status : String
  palm_id : String
deriving DecidableEq

/-- Embedding of `PalmUPIPayment.register_new_palm`, taking the already extracted
feature list (the computer-vision extractor is an external collaborator), the vault
key of the session and the current timestamp, and returning the result dict together
with the updated palm database.  The source performs no extraction-failure check
before hashing and storing the features. -/
def register_new_palm (key : Nat) (now : String) (db : Store) (user : UserData)
    (palm_features : Features) : RegisterResult × Store :=
  let palm_hash := sha256hex (py_str_features palm_features)
  let encrypted_upi_id := fernetEncrypt key user.upi_id
  let db2 := dbInsert db palm_hash
    { user_id := user.user_id, encrypted_upi_id := encrypted_upi_id,
      registration_date := now, palm_features := palm_features }
  ({ status := "success", palm_id := palm_hash }, db2)

/-- The result dict of `authenticate_palm`, with optional fields mirroring exactly
the keys present in each branch of the source. -/
structure AuthResult where
  status : String
  palm_id : Option String
  score : Option ℚ
  message : Option String
deriving DecidableEq

/-- The failure dict of `authenticate_palm`; note that it carries no score field. -/
def auth_failed_result : AuthResult :=
  { status := "failed", palm_id := none, score := none,
    message := some "Palm not recognized" }

/-- One iteration of the search loop in `authenticate_palm`: the running best
(`best_match`, `best_score`) is replaced when the score of the current record beats
the running best and clears the `0.8` confidence threshold, both comparisons strict
(`score > best_score and score > 0.8`). -/
def auth_step (presented : Features) (acc : Option String × ℚ) (kv : String × Record) :
    Option String × ℚ :=
  if acc.2 < match_palm_features presented kv.2.palm_features ∧
      4 / 5 < match_palm_features presented kv.2.palm_features then
    (some kv.1, match_palm_features presented kv.2.palm_features)
  else acc

/-- The whole search loop of `authenticate_palm`: fold over the palm database
starting from `best_match = None`, `best_score = 0`. -/
def auth_scan (presented : Features) (db : Store) : Option String × ℚ :=
  db.foldl (auth_step presented) (none, 0)

/-- Embedding of `PalmUPIPayment.authenticate_palm` on the extracted features of the
presented image.  The final `if best_match:` truthiness test is mirrored exactly: it
also sends an empty-string id to the failure branch. -/
def authenticate_palm (presented : Features) (db : Store) : AuthResult :=
  match auth_scan presented db with
  | (some pid, best) =>
    if pid = "" then auth_failed_result
    else { status := "authenticated", palm_id := some pid, score := some best,
           message := none }
  | (none, _) => auth_failed_result

/-- Python slice `s[-4:]`: the last four characters, or the whole string when it is
shorter than four characters. -/
def last_four (s : String) : String :=
  String.mk (s.data.drop (s.data.length - 4))

/-- The UPI gateway request dict assembled by `initiate_payment` (the source builds
it for the gateway call it simulates, then returns the response dict below). -/
structure PaymentRequest where
  transaction_id : String
  payer_vpa : String
  payee_vpa : String
  amount : ℚ
  description : String
  merchant_id : String
deriving DecidableEq

/-- The dict `initiate_payment` returns. -/
structure PaymentResponse where
  status : String
  transaction_id : Option String
  message : String
deriving DecidableEq

/-- Outcome of `initiate_payment`: either the `InvalidToken` exception escaping from
`Fernet.decrypt`, or a normal return carrying the assembled gateway request (absent
on the early invalid-id return) and the returned response dict. -/
inductive PaymentOutcome where
  | invalid_token : PaymentOutcome
  | returned (request : Option PaymentRequest) (response : PaymentResponse) :
      PaymentOutcome
deriving DecidableEq

/-- Embedding of `PalmUPIPayment.initiate_payment`; `time_now` is `int(time.time())`
and `key` is the session vault key. -/
def initiate_payment (key : Nat) (db : Store) (time_now : Nat) (palm_id : String)
    (amount : ℚ) (merchant_vpa : String) (description : String) : PaymentOutcome :=
  match dbGet db palm_id with
  | none =>
    .returned none
      { status := "failed", transaction_id := none, message := "Invalid palm ID" }
  | some user_data =>
    match fernetDecrypt key user_data.encrypted_upi_id with
    | none => .invalid_token
    | some upi_id =>
      let transaction_id := "TXN" ++ toString time_now ++ last_four user_data.user_id
      .returned
        (some { transaction_id := transaction_id, payer_vpa := upi_id,
                payee_vpa := merchant_vpa, amount := amount,
                description := description, merchant_id := "MERCHANT123456" })
        { status := "success", transaction_id := some transaction_id,
          message := "Payment processed successfully" }

theorem dbGet_dbInsert_self (db : Store) (k : String) (r : Record) :
    dbGet (dbInsert db k r) k = some r := by
  induction db with
  | nil => simp [dbInsert, dbGet]
  | cons kv rest ih =>
    by_cases h : kv.1 = k
    · simp [dbInsert, dbGet, h]
    · simp [dbInsert, dbGet, h, ih]

/-- Claim C1, counterexample: with the presented point `(0, 0)` and the single
enrolled point `(10, 0)` — Euclidean distance exactly 10 — the source scores `0`
(it requires distance strictly below the threshold, `dist < 10`), while the claim
as stated, reading "within 10 units" inclusively, demands score `1`. -/
theorem match_score_ne_claimed_at_distance_ten :
    match_palm_features [⟨0, 0⟩] [⟨10, 0⟩] ≠ claimed_score_within_ten [⟨0, 0⟩] [⟨10, 0⟩] := by
  have hpm : point_matched ⟨0, 0⟩ [⟨10, 0⟩] = false := by
    simp [point_matched, sq_dist]
  have h1 : match_palm_features [⟨0, 0⟩] [⟨10, 0⟩] = 0 := by
    simp [match_palm_features, hpm]
  have h2 : claimed_score_within_ten [⟨0, 0⟩] [⟨10, 0⟩] = 1 := by
    simp [claimed_score_within_ten, sq_dist]
  rw [h1, h2]
  norm_num

/-- Claim C1, amended: the matcher score equals the number of presented points with
an enrolled point at Euclidean distance strictly less than 10 units, divided by the
presented count, and `0` for an empty presented set. -/
theorem match_score_eq_strict_claim (presented enrolled : Features) :
    match_palm_features presented enrolled =
      amended_score_strictly_within_ten presented enrolled := by
  unfold match_palm_features amended_score_strictly_within_ten
  by_cases h1 : presented = []
  · simp [h1]
  · by_cases h2 : enrolled = []
    · subst h2
      simp [h1, point_matched]
    · have hlen : 0 < presented.length := List.length_pos.mpr h1
      simp [h1, h2, hlen]

/-- Claim C9: the matcher score always lies in the closed unit interval, since each
presented point is counted at most once and the count is divided by the presented
length. -/
theorem match_score_in_unit_interval (features1 features2 : Features) :
    0 ≤ match_palm_features features1 features2 ∧
      match_palm_features features1 features2 ≤ 1 := by
  unfold match_palm_features
  split
  · exact ⟨le_refl 0, zero_le_one⟩
  · split
    · rename_i hlen
      constructor
      · exact div_nonneg (Nat.cast_nonneg _) (Nat.cast_nonneg _)
      · rw [div_le_one (by exact_mod_cast hlen)]
        exact_mod_cast List.length_filter_le _ _
    · exact ⟨le_refl 0, zero_le_one⟩

/-- Claim C10: against an empty enrolled feature set the matcher returns exactly `0`
for every presented set, the non-empty ones included; the emptiness guards make the
score total — the division is only ever taken with a positive presented length. -/
theorem match_score_zero_on_empty_enrolled (features1 : Features) :
    match_palm_features features1 [] = 0 := by
  simp [match_palm_features]

/-- Claim C3, counterexample: registering with an empty extracted feature list (the
no-biometric case) does not fail — the source returns status success and inserts a
record into the palm database. -/
theorem register_succeeds_on_empty_features :
    (register_new_palm 0 "2026-01-01" [] ⟨"U1", "Alice", "alice@bank"⟩ []).1.status =
        "success" ∧
      ((register_new_palm 0 "2026-01-01" [] ⟨"U1", "Alice", "alice@bank"⟩ []).2).length = 1 := by
  decide

/-- Claim C3, amended: `register_new_palm` performs no extraction-failure check — for
every feature list, the empty one included, it returns status success and upserts the
enrollment record keyed by the digest of the textual form of the features. -/
theorem register_always_succeeds_and_inserts (key : Nat) (now : String) (db : Store)
    (user : UserData) (features : Features) :
    (register_new_palm key now db user features).1 =
        { status := "success", palm_id := sha256hex (py_str_features features) } ∧
      dbGet (register_new_palm key now db user features).2
          (sha256hex (py_str_features features)) =
        some { user_id := user.user_id,
               encrypted_upi_id := fernetEncrypt key user.upi_id,
               registration_date := now, palm_features := features } :=
  ⟨rfl, dbGet_dbInsert_self db (sha256hex (py_str_features features)) _⟩

/-- Claim C4, counterexample: against an empty palm database the authentication
result is the failure dict of the source, which carries no score field at all — in
particular it does not report a best score of `0` as the claim states. -/
theorem empty_store_failure_carries_no_score :
    (authenticate_palm [] []).status = "failed" ∧
      (authenticate_palm [] []).score = none ∧
      ¬ (authenticate_palm [] []).score = some 0 := by
  decide

/-- Claim C4, amended: authenticating against an empty palm database always returns
the failure dict with message "Palm not recognized" and no score field, and the
computation is total (no exception is raised). -/
theorem authenticate_empty_store_fails_without_score (presented : Features) :
    authenticate_palm presented [] =
      { status := "failed", palm_id := none, score := none,
        message := some "Palm not recognized" } :=
  rfl

/-- Claim C6: the palm id returned by `register_new_palm` is a deterministic digest
of the feature list alone — registering bit-identical features twice yields the
identical id, whatever the vault key, timestamp, database contents or user data. -/
theorem palm_id_depends_only_on_features (k1 k2 : Nat) (t1 t2 : String)
    (db1 db2 : Store) (u1 u2 : UserData) (features : Features) :
    (register_new_palm k1 t1 db1 u1 features).1.palm_id =
      (register_new_palm k2 t2 db2 u2 features).1.palm_id :=
  rfl

/-- Claim C7: `initiate_payment` with a palm id absent from the database returns the
failure dict "Invalid palm ID" without raising, assembles no gateway request and
reports no transaction id. -/
theorem unknown_palm_id_rejected (key : Nat) (db : Store) (time_now : Nat)
    (palm_id : String) (amount : ℚ) (merchant_vpa description : String)
    (h : dbGet db palm_id = none) :
    initiate_payment key db time_now palm_id amount merchant_vpa description =
      PaymentOutcome.returned none
        { status := "failed", transaction_id := none, message := "Invalid palm ID" } := by
  unfold initiate_payment
  rw [h]

/-- Claim C7, witness at a concrete input: the empty database and the id
"no-such-id". -/
theorem unknown_palm_id_rejected_witness :
    dbGet [] "no-such-id" = none ∧
      initiate_payment 0 [] 0 "no-such-id" 5 "merchant@bank" "" =
        PaymentOutcome.returned none
          { status := "failed", transaction_id := none, message := "Invalid palm ID" } :=
  ⟨rfl, unknown_palm_id_rejected 0 [] 0 "no-such-id" 5 "merchant@bank" "" rfl⟩

/-- Claim C8: the vault round trip — decrypting the encryption of a credential under
the same session key restores the credential, stated for ASCII credentials of at
most 256 bytes as the claim does. -/
theorem vault_round_trip (key : Nat) (credential : String)
    (_hlen : credential.length ≤ 256)
    (_hascii : credential.data.all (fun c => c.toNat < 128) = true) :
    fernetDecrypt key (fernetEncrypt key credential) = some credential := by
  simp [fernetDecrypt, fernetEncrypt]

/-- Claim C8, witness at the concrete credential "alice@bank". -/
theorem vault_round_trip_witness :
    ("alice@bank".length ≤ 256 ∧
        "alice@bank".data.all (fun c => c.toNat < 128) = true) ∧
      fernetDecrypt 0 (fernetEncrypt 0 "alice@bank") = some "alice@bank" :=
  ⟨⟨by decide, by decide⟩, vault_round_trip 0 "alice@bank" (by decide) (by decide)⟩

/-- Invariant of the search loop of `authenticate_palm`, for an arbitrary starting
accumulator: the running best score never decreases, every scanned record either
fails the threshold or is dominated by the final best score, and the final
accumulator is either untouched or the entry of some scanned record whose score
clears the threshold. -/
theorem auth_fold_spec (presented : Features) (db : Store) :
    ∀ acc : Option String × ℚ,
      acc.2 ≤ (db.foldl (auth_step presented) acc).2 ∧
      (∀ kv ∈ db, match_palm_features presented kv.2.palm_features ≤ 4 / 5 ∨
        match_palm_features presented kv.2.palm_features ≤
          (db.foldl (auth_step presented) acc).2) ∧
      (db.foldl (auth_step presented) acc = acc ∨
        ∃ kv ∈ db, (db.foldl (auth_step presented) acc).1 = some kv.1 ∧
          (db.foldl (auth_step presented) acc).2 =
            match_palm_features presented kv.2.palm_features ∧
          4 / 5 < (db.foldl (auth_step presented) acc).2) := by
  induction db with
  | nil =>
    intro acc
    exact ⟨le_refl _, fun kv hkv => absurd hkv (List.not_mem_nil kv), Or.inl rfl⟩
  | cons hd tl ih =>
    intro acc
    obtain ⟨ih1, ih2, ih3⟩ := ih (auth_step presented acc hd)
    simp only [List.foldl_cons]
    by_cases hcond : acc.2 < match_palm_features presented hd.2.palm_features ∧
        4 / 5 < match_palm_features presented hd.2.palm_features
    · have hstep : auth_step presented acc hd =
          (some hd.1, match_palm_features presented hd.2.palm_features) := by
        unfold auth_step
        exact if_pos hcond
    
      have hstep2 : match_palm_features presented hd.2.palm_features =
          (auth_step presented acc hd).2 := by
        rw [hstep]
      refine ⟨?_, ?_, ?_⟩
      · exact le_trans (le_of_lt hcond.1) (le_trans (le_of_eq hstep2) ih1)
      · intro kv hkv
        rcases List.mem_cons.mp hkv with heq | hmem
        · subst heq
          exact Or.inr (le_trans (le_of_eq hstep2) ih1)
        · exact ih2 kv hmem
      · rcases ih3 with heq | ⟨kv, hkv, hfst, hsnd, hlt⟩
        · refine Or.inr ⟨hd, List.mem_cons_self hd tl, ?_, ?_, ?_⟩
          · rw [heq, hstep]
          · rw [heq, hstep]
          · rw [heq, hstep]
            exact hcond.2
        · exact Or.inr ⟨kv, List.mem_cons_of_mem hd hkv, hfst, hsnd, hlt⟩
    · have hstep : auth_step presented acc hd = acc := by
        unfold auth_step
        exact if_neg hcond
      have hacc : acc.2 = (auth_step presented acc hd).2 := by
        rw [hstep]
      refine ⟨?_, ?_, ?_⟩
      · exact le_trans (le_of_eq hacc) ih1
      · intro kv hkv
        rcases List.mem_cons.mp hkv with heq | hmem
        · subst heq
          rcases not_and_or.mp hcond with hna | hnb
          · exact Or.inr (le_trans (not_lt.mp hna) (le_trans (le_of_eq hacc) ih1))
          · exact Or.inl (not_lt.mp hnb)
        · exact ih2 kv hmem
      · rcases ih3 with heq | ⟨kv, hkv, hfst, hsnd, hlt⟩
        · left
          rw [heq, hstep]
        · exact Or.inr ⟨kv, List.mem_cons_of_mem hd hkv, hfst, hsnd, hlt⟩

/-- Claim C2: an authenticated result names a candidate only if the score of that
candidate is the maximum of the matcher scores over all enrolled records and
strictly exceeds the acceptance threshold `0.8`; a score equal to the threshold can
therefore never authenticate. -/
theorem authenticate_only_max_above_threshold (presented : Features) (db : Store)
    (h : (authenticate_palm presented db).status = "authenticated") :
    ∃ pid best,
      (authenticate_palm presented db).palm_id = some pid ∧
      (authenticate_palm presented db).score = some best ∧
      4 / 5 < best ∧
      (∃ kv ∈ db, kv.1 = pid ∧
        match_palm_features presented kv.2.palm_features = best) ∧
      ∀ kv ∈ db, match_palm_features presented kv.2.palm_features ≤ best := by
  obtain ⟨h1, h2, h3⟩ := auth_fold_spec presented db (none, 0)
  rcases hscan : auth_scan presented db with ⟨o, best⟩
  have hfold : db.foldl (auth_step presented) ((none : Option String), (0 : ℚ)) =
      (o, best) := hscan
  rw [hfold] at h1 h2 h3
  dsimp only at h1 h2 h3
  cases o with
  | none =>
    have hfail : authenticate_palm presented db = auth_failed_result := by
      unfold authenticate_palm
      rw [hscan]
    rw [hfail] at h
    exact absurd h (by decide)
  | some pid =>
    by_cases hpid : pid = ""
    · have hfail : authenticate_palm presented db = auth_failed_result := by
        unfold authenticate_palm
        rw [hscan]
        exact if_pos hpid
      rw [hfail] at h
      exact absurd h (by decide)
    · have hauth : authenticate_palm presented db =
          { status := "authenticated", palm_id := some pid, score := some best,
            message := none } := by
        unfold authenticate_palm
        rw [hscan]
        exact if_neg hpid
      rcases h3 with heq | ⟨kv, hkv, hfst, hsnd, hlt⟩
      · simp at heq
      · refine ⟨pid, best, ?_, ?_, hlt, ⟨kv, hkv, ?_, hsnd.symm⟩, ?_⟩
        · rw [hauth]
        · rw [hauth]
        · exact (Option.some.inj hfst).symm
        · intro kv2 hkv2
          rcases h2 kv2 hkv2 with hle | hle
          · exact le_of_lt (lt_of_le_of_lt hle hlt)
          · exact hle

/-- Claim C5: re-enrolling the identical feature list under a second credential
overwrites the stored record, and a subsequent payment for that palm id decrypts and
uses the new credential, never the old one. -/
theorem reenroll_overwrites_credential (key : Nat) (t1 t2 : String) (tp : Nat)
    (db : Store) (u1 u2 : UserData) (features : Features) (amount : ℚ)
    (merchant_vpa description : String) (hne : u1.upi_id ≠ u2.upi_id) :
    ∃ req resp,
      initiate_payment key
          (register_new_palm key t2 (register_new_palm key t1 db u1 features).2 u2
            features).2
          tp (register_new_palm key t1 db u1 features).1.palm_id amount merchant_vpa
          description =
        PaymentOutcome.returned (some req) resp ∧
      req.payer_vpa = u2.upi_id ∧ req.payer_vpa ≠ u1.upi_id ∧
      resp.status = "success" := by
  refine ⟨{ transaction_id := "TXN" ++ toString tp ++ last_four u2.user_id,
            payer_vpa := u2.upi_id, payee_vpa := merchant_vpa, amount := amount,
            description := description, merchant_id := "MERCHANT123456" },
          { status := "success",
            transaction_id := some ("TXN" ++ toString tp ++ last_four u2.user_id),
            message := "Payment processed successfully" }, ?_, rfl, Ne.symm hne, rfl⟩
  have hget : dbGet
      (register_new_palm key t2 (register_new_palm key t1 db u1 features).2 u2
        features).2
      (register_new_palm key t1 db u1 features).1.palm_id =
      some { user_id := u2.user_id,
             encrypted_upi_id := fernetEncrypt key u2.upi_id,
             registration_date := t2, palm_features := features } :=
    dbGet_dbInsert_self _ _ _
  unfold initiate_payment
  rw [hget]
  simp [fernetDecrypt, fernetEncrypt]

/-- Claim C2, witness at a concrete input: a single enrolled record with the same
single keypoint as the presented image, giving score `1 > 0.8`, hence an
authenticated result. -/
theorem authenticate_only_max_above_threshold_witness :
    (authenticate_palm [⟨0, 0⟩]
        [("palmid1", ⟨"U1", ⟨0, "alice@bank"⟩, "t0", [⟨0, 0⟩]⟩)]).status =
      "authenticated" ∧
    ∃ pid best,
      (authenticate_palm [⟨0, 0⟩]
          [("palmid1", ⟨"U1", ⟨0, "alice@bank"⟩, "t0", [⟨0, 0⟩]⟩)]).palm_id =
        some pid ∧
      (authenticate_palm [⟨0, 0⟩]
          [("palmid1", ⟨"U1", ⟨0, "alice@bank"⟩, "t0", [⟨0, 0⟩]⟩)]).score =
        some best ∧
      4 / 5 < best ∧
      (∃ kv ∈ ([("palmid1", ⟨"U1", ⟨0, "alice@bank"⟩, "t0", [⟨0, 0⟩]⟩)] : Store),
        kv.1 = pid ∧ match_palm_features [⟨0, 0⟩] kv.2.palm_features = best) ∧
      ∀ kv ∈ ([("palmid1", ⟨"U1", ⟨0, "alice@bank"⟩, "t0", [⟨0, 0⟩]⟩)] : Store),
        match_palm_features [⟨0, 0⟩] kv.2.palm_features ≤ best := by
  have hs : match_palm_features [⟨0, 0⟩] [⟨0, 0⟩] = 1 := by
    norm_num [match_palm_features, point_matched, sq_dist]
  have hscan : auth_scan [⟨0, 0⟩]
      [("palmid1", ⟨"U1", ⟨0, "alice@bank"⟩, "t0", [⟨0, 0⟩]⟩)] =
      (some "palmid1", 1) := by
    norm_num [auth_scan, auth_step, hs]
  have hA : (authenticate_palm [⟨0, 0⟩]
      [("palmid1", ⟨"U1", ⟨0, "alice@bank"⟩, "t0", [⟨0, 0⟩]⟩)]).status =
      "authenticated" := by
    unfold authenticate_palm
    rw [hscan]
    rfl
  exact ⟨hA, authenticate_only_max_above_threshold [⟨0, 0⟩]
    [("palmid1", ⟨"U1", ⟨0, "alice@bank"⟩, "t0", [⟨0, 0⟩]⟩)] hA⟩

/-- Claim C5, witness at a concrete input: enroll the empty feature list under the
credential "old@upi", re-enroll it under "new@upi", then pay. -/
theorem reenroll_overwrites_credential_witness :
    (UserData.mk "U1" "Alice" "old@upi").upi_id ≠
        (UserData.mk "U1" "Alice" "new@upi").upi_id ∧
    ∃ req resp,
      initiate_payment 0
          (register_new_palm 0 "t2"
            (register_new_palm 0 "t1" [] ⟨"U1", "Alice", "old@upi"⟩ []).2
            ⟨"U1", "Alice", "new@upi"⟩ []).2
          7 (register_new_palm 0 "t1" [] ⟨"U1", "Alice", "old@upi"⟩ []).1.palm_id
          100 "merchant@bank" "" =
        PaymentOutcome.returned (some req) resp ∧
      req.payer_vpa = "new@upi" ∧ req.payer_vpa ≠ "old@upi" ∧
      resp.status = "success" :=
  ⟨by decide, reenroll_overwrites_credential 0 "t1" "t2" 7 []
    ⟨"U1", "Alice", "old@upi"⟩ ⟨"U1", "Alice", "new@upi"⟩ [] 100 "merchant@bank" ""
    (by decide)⟩
